import Mathlib

/-!
# Verification of the openfang `openfang-clawrtc` attestation core

A shallow embedding, in Lean 4, of the RIP-PoA hardware-attestation subsystem
of the `openfang-clawrtc` crate: the six-probe fingerprint battery and its
aggregator (`src/fingerprint/`), the attestation commitment and mining loop
(`src/miner.rs`), the node client's balance query (`src/client.rs`), and the
MAC-address detection feeding the attestation signals payload
(`src/hardware.rs`).

Modelling conventions:
* Timing samples measured by the probes are `f64` nanosecond durations in the
  Rust code; they are embedded as exact rationals (`ℚ`).  A probe's `check`
  function becomes a function of the samples it would have measured, since the
  measurement itself (wall-clock timing) is machine state outside the program.
* Conditions of the form `stdev > 0` or `sqrt v / m ≥ c` are implemented on
  `ℚ` in the equivalent squared form (`variance > 0`, `m^2 ≤ c⁻²·v`) so that
  the definitions stay executable; theorems relate the executable form back to
  the `Real.sqrt` formulation used by the code and the specification.
* Machine integers that matter (SHA-256 words) are `Nat` reduced mod `2^32`.
* Fallible operations are embedded with `Except`.
* Wall-clock time in the mining loop is discretised to whole seconds, the
  granularity at which `interruptible_sleep` polls the cancellation flag.
-/

/-! ## String helpers (ASCII-level model of the `str` operations used) -/

/-- Position of the first occurrence of `needle` in `hay`
(model of Rust `str::find` for the ASCII needles used by the crate). -/
def findSubstrPos (needle : List Char) : List Char → Option Nat
  | [] => if needle.isEmpty then some 0 else none
  | c :: rest =>
    if needle.isPrefixOf (c :: rest) then some 0
    else (findSubstrPos needle rest).map (· + 1)

/-- Model of Rust `str::contains` for substring needles. -/
def strContainsSub (hay needle : String) : Bool :=
  (findSubstrPos needle.data hay.data).isSome

/-- Model of Rust `str::to_lowercase` (ASCII: the crate only compares ASCII). -/
def strToLower (s : String) : String := String.mk (s.data.map Char.toLower)

/-- Strip leading and trailing whitespace from a character list. -/
def trimChars (cs : List Char) : List Char :=
  ((cs.dropWhile Char.isWhitespace).reverse.dropWhile Char.isWhitespace).reverse

/-- Model of Rust `str::trim`. -/
def strTrim (s : String) : String := String.mk (trimChars s.data)

/-- Split a character list at newlines. -/
def splitLinesChars : List Char → List (List Char)
  | [] => [[]]
  | c :: rest =>
    let r := splitLinesChars rest
    if c = '\n' then [] :: r
    else
      match r with
      | h :: t => (c :: h) :: t
      | [] => [[c]]

/-- Model of Rust `str::lines` (split on newline). -/
def strLines (s : String) : List String := (splitLinesChars s.data).map String.mk

/-! ## Rational statistics used by the probes -/

/-- `sum / len` — population mean as computed by the probes (`ℚ` convention:
division by zero yields 0, matching the Rust code only being run on the fixed
nonempty sample counts). -/
def popMean (xs : List ℚ) : ℚ := xs.sum / (xs.length : ℚ)

/-- `Σ (x - mean)² / len` — population variance as computed by
`clock_drift::check` for its 200 samples and for the consecutive-drift list. -/
def popVariance (xs : List ℚ) : ℚ :=
  (xs.map (fun x => (x - popMean xs) ^ 2)).sum / (xs.length : ℚ)

/-- `sum / max len 1` — the guarded mean used for the drift pairs in
`clock_drift::check` and by `instruction_jitter::mean`. -/
def meanMax1 (xs : List ℚ) : ℚ := xs.sum / ((max xs.length 1 : ℕ) : ℚ)

/-- `Σ (x - meanMax1)² / max len 1` — the guarded population variance used for
the drift pairs in `clock_drift::check`. -/
def varianceMax1 (xs : List ℚ) : ℚ :=
  (xs.map (fun x => (x - meanMax1 xs) ^ 2)).sum / ((max xs.length 1 : ℕ) : ℚ)

/-- Sample variance with the `len < 2 → 0` guard, as in
`thermal_drift::stdev` and `instruction_jitter::stdev` (both divide by
`len - 1`; their `stdev` is the square root of this quantity, and the checks
only ever test `stdev > 0`, which holds iff this variance is positive). -/
def sampleVariance (xs : List ℚ) : ℚ :=
  if xs.length < 2 then 0
  else (xs.map (fun x => (x - popMean xs) ^ 2)).sum / ((xs.length - 1 : ℕ) : ℚ)

/-! ## `fingerprint::CheckResult`

The Rust `CheckResult` carries `passed : bool` plus a JSON `data` object of
floating-point diagnostics.  No claim refers to the diagnostics, so the
embedding keeps only the verdict. -/

/-- Result of a single fingerprint check (`fingerprint::CheckResult`). -/
structure CheckResult where
  passed : Bool
deriving DecidableEq, Repr

namespace clock_drift

/-- The absolute differences between consecutive samples
(`intervals.windows(2).map(|w| (w[1] - w[0]).abs())`). -/
def driftPairs (intervals : List ℚ) : List ℚ :=
  (intervals.zip intervals.tail).map (fun p => |p.2 - p.1|)

/-- `fingerprint::clock_drift::check`, as a function of the 200 timed
intervals it measures.  The code computes `cv = stdev/mean` (0 when
`mean ≤ 0`) and `drift_stdev = sqrt drift_variance` and passes iff
`cv ≥ 0.0001 ∧ drift_stdev > 0`; over `ℚ` this is the equivalent
`0 < mean ∧ mean² ≤ 10⁸·variance ∧ 0 < drift_variance`. -/
def check (intervals : List ℚ) : CheckResult :=
  let mean := popMean intervals
  let variance := popVariance intervals
  let driftVariance := varianceMax1 (driftPairs intervals)
  { passed := decide (0 < mean) && decide (mean ^ 2 ≤ 10 ^ 8 * variance)
      && decide (0 < driftVariance) }

end clock_drift

namespace cache_timing

/-- `fingerprint::cache_timing::check`, as a function of the three per-size
lists of averaged access latencies.  Pass iff
`(l2/l1 ≥ 1.01 ∨ l3/l2 ≥ 1.01) ∧ l1 > 0 ∧ l2 > 0 ∧ l3 > 0`,
ratios being 0 when their denominator is not positive. -/
def check (l1Times l2Times l3Times : List ℚ) : CheckResult :=
  let l1Avg := popMean l1Times
  let l2Avg := popMean l2Times
  let l3Avg := popMean l3Times
  let r21 := if 0 < l1Avg then l2Avg / l1Avg else 0
  let r32 := if 0 < l2Avg then l3Avg / l2Avg else 0
  { passed := decide (101 / 100 ≤ r21 ∨ 101 / 100 ≤ r32)
      && decide (0 < l1Avg) && decide (0 < l2Avg) && decide (0 < l3Avg) }

end cache_timing

namespace simd_identity

/-- `fingerprint::simd_identity::check`, as a function of the architecture
string, the CPU feature flags read from the OS, and the two `cfg`-gated
`is_x86_feature_detected!` results (false on non-x86 builds). -/
def check (archRaw : String) (flags : List String)
    (sse2Detected avxDetected : Bool) : CheckResult :=
  let arch := strToLower archRaw
  let hasSse :=
    (flags.any fun f => strContainsSub (strToLower f) "sse") || sse2Detected
  let hasAvx :=
    (flags.any fun f => strContainsSub (strToLower f) "avx") || avxDetected
  let hasAltivec :=
    (flags.any fun f => strContainsSub (strToLower f) "altivec")
      || strContainsSub arch "ppc"
  let hasNeon :=
    (flags.any fun f => strContainsSub (strToLower f) "neon")
      || strContainsSub arch "arm" || strContainsSub arch "aarch64"
  { passed := hasSse || hasAvx || hasAltivec || hasNeon || !flags.isEmpty }

end simd_identity

namespace thermal_drift

/-- `fingerprint::thermal_drift::check`, as a function of the cold and hot
sample lists.  Pass iff `cold_stdev > 0 ∨ hot_stdev > 0`, i.e. iff either
sample variance is positive. -/
def check (coldTimes hotTimes : List ℚ) : CheckResult :=
  { passed := decide (0 < sampleVariance coldTimes)
      || decide (0 < sampleVariance hotTimes) }

end thermal_drift

namespace instruction_jitter

/-- `fingerprint::instruction_jitter::check`, as a function of the three
per-category sample lists.  Pass iff any category's stdev is positive. -/
def check (intTimes fpTimes branchTimes : List ℚ) : CheckResult :=
  { passed := decide (0 < sampleVariance intTimes)
      || decide (0 < sampleVariance fpTimes)
      || decide (0 < sampleVariance branchTimes) }

end instruction_jitter

namespace anti_emulation

/-- `VM_STRINGS` — known hypervisor/cloud vendor substrings. -/
def VM_STRINGS : List String :=
  ["vmware", "virtualbox", "kvm", "qemu", "xen", "hyperv", "hyper-v",
   "parallels", "bhyve", "amazon", "amazon ec2", "ec2", "nitro", "google",
   "google compute engine", "gce", "microsoft corporation", "azure",
   "digitalocean", "linode", "akamai", "vultr", "hetzner", "oracle",
   "oraclecloud", "ovh", "ovhcloud", "alibaba", "alicloud", "bochs",
   "innotek", "seabios"]

/-- `DMI_PATHS` — files scanned for VM indicators. -/
def DMI_PATHS : List String :=
  ["/sys/class/dmi/id/product_name", "/sys/class/dmi/id/sys_vendor",
   "/sys/class/dmi/id/board_vendor", "/sys/class/dmi/id/board_name",
   "/sys/class/dmi/id/bios_vendor", "/sys/class/dmi/id/chassis_vendor",
   "/sys/class/dmi/id/chassis_asset_tag", "/proc/scsi/scsi"]

/-- `VM_ENV_VARS` — environment variables indicating containers/cloud. -/
def VM_ENV_VARS : List String :=
  ["KUBERNETES", "DOCKER", "VIRTUAL", "container", "AWS_EXECUTION_ENV",
   "ECS_CONTAINER_METADATA_URI", "GOOGLE_CLOUD_PROJECT",
   "AZURE_FUNCTIONS_ENVIRONMENT", "WEBSITE_INSTANCE_ID"]

/-- The machine state read by `anti_emulation::check`: file contents, the
environment, the cloud-metadata TCP probe outcome, and the stdout of
`systemd-detect-virt` when the command ran. -/
structure Env where
  readFile : String → Option String
  envSet : String → Bool
  cloudMetadataResponds : Bool
  systemdDetectVirt : Option String

/-- The `vm_indicators` list accumulated by `anti_emulation::check`, in the
code's scan order: DMI substring hits, container/cloud environment variables,
the cpuinfo `hypervisor` flag, `/sys/hypervisor/type`, the cloud-metadata
response, and a non-empty, non-"none" `systemd-detect-virt` result. -/
def vmIndicators (env : Env) : List String :=
  (DMI_PATHS.foldr
    (fun path acc =>
      (match env.readFile path with
       | some content =>
         VM_STRINGS.filterMap fun v =>
           if strContainsSub (strToLower (strTrim content)) v
           then some (path ++ ":" ++ v) else none
       | none => []) ++ acc) [])
  ++ (VM_ENV_VARS.filterMap fun key =>
        if env.envSet key then some ("ENV:" ++ key) else none)
  ++ (match env.readFile "/proc/cpuinfo" with
      | some cpuinfo =>
        if strContainsSub (strToLower cpuinfo) "hypervisor"
        then ["cpuinfo:hypervisor"] else []
      | none => [])
  ++ (match env.readFile "/sys/hypervisor/type" with
      | some content =>
        let hvType := strToLower (strTrim content)
        if hvType ≠ "" then ["sys_hypervisor:" ++ hvType] else []
      | none => [])
  ++ (if env.cloudMetadataResponds then ["cloud_metadata:detected"] else [])
  ++ (match env.systemdDetectVirt with
      | some stdout =>
        let virtType := strToLower (strTrim stdout)
        if virtType ≠ "" ∧ virtType ≠ "none"
        then ["systemd_detect_virt:" ++ virtType] else []
      | none => [])

/-- `fingerprint::anti_emulation::check`: pass iff no VM indicator found. -/
def check (env : Env) : CheckResult :=
  { passed := (vmIndicators env).isEmpty }

end anti_emulation

/-! ## `fingerprint::validate_all_checks` (the aggregator) -/

/-- Individual check results (`fingerprint::FingerprintChecks`). -/
structure FingerprintChecks where
  clock_drift : CheckResult
  cache_timing : CheckResult
  simd_identity : CheckResult
  thermal_drift : CheckResult
  instruction_jitter : CheckResult
  anti_emulation : CheckResult
deriving DecidableEq, Repr

/-- Full fingerprint report (`fingerprint::FingerprintReport`). -/
structure FingerprintReport where
  all_passed : Bool
  checks : FingerprintChecks
deriving DecidableEq, Repr

/-- The machine state consumed by one run of the probe battery: the samples
each timing probe would measure and the identity surfaces the other probes
read. -/
structure ProbeEnv where
  clockIntervals : List ℚ
  l1Times : List ℚ
  l2Times : List ℚ
  l3Times : List ℚ
  simdArch : String
  simdFlags : List String
  sse2Detected : Bool
  avxDetected : Bool
  coldTimes : List ℚ
  hotTimes : List ℚ
  intTimes : List ℚ
  fpTimes : List ℚ
  branchTimes : List ℚ
  antiEmu : anti_emulation.Env

/-- `fingerprint::validate_all_checks`: run all six probes and combine their
verdicts with logical AND. -/
def validate_all_checks (env : ProbeEnv) : FingerprintReport :=
  let clockDriftR := clock_drift.check env.clockIntervals
  let cacheTimingR := cache_timing.check env.l1Times env.l2Times env.l3Times
  let simdIdentityR :=
    simd_identity.check env.simdArch env.simdFlags env.sse2Detected
      env.avxDetected
  let thermalDriftR := thermal_drift.check env.coldTimes env.hotTimes
  let instructionJitterR :=
    instruction_jitter.check env.intTimes env.fpTimes env.branchTimes
  let antiEmulationR := anti_emulation.check env.antiEmu
  let allPassed := clockDriftR.passed
    && cacheTimingR.passed
    && simdIdentityR.passed
    && thermalDriftR.passed
    && instructionJitterR.passed
    && antiEmulationR.passed
  { all_passed := allPassed,
    checks :=
      { clock_drift := clockDriftR,
        cache_timing := cacheTimingR,
        simd_identity := simdIdentityR,
        thermal_drift := thermalDriftR,
        instruction_jitter := instructionJitterR,
        anti_emulation := antiEmulationR } }

/-! ## SHA-256 (the `sha2` crate's `Sha256::digest`), hex, and UTF-8

Bytes and 32-bit words are `Nat`s; words are reduced mod `2^32` wherever the
hardware would overflow. -/

/-- Truncate to a 32-bit word. -/
def w32 (x : Nat) : Nat := x % 4294967296

/-- 32-bit rotate right. -/
def rotr (n x : Nat) : Nat := w32 ((x >>> n) ||| (x <<< (32 - n)))

/-- SHA-256 round constants (fractional cube roots of the first 64 primes). -/
def shaK : List Nat :=
  [1116352408, 1899447441, 3049323471, 3921009573,
   961987163, 1508970993, 2453635748, 2870763221,
   3624381080, 310598401, 607225278, 1426881987,
   1925078388, 2162078206, 2614888103, 3248222580,
   3835390401, 4022224774, 264347078, 604807628,
   770255983, 1249150122, 1555081692, 1996064986,
   2554220882, 2821834349, 2952996808, 3210313671,
   3336571891, 3584528711, 113926993, 338241895,
   666307205, 773529912, 1294757372, 1396182291,
   1695183700, 1986661051, 2177026350, 2456956037,
   2730485921, 2820302411, 3259730800, 3345764771,
   3516065817, 3600352804, 4094571909, 275423344,
   430227734, 506948616, 659060556, 883997877,
   958139571, 1322822218, 1537002063, 1747873779,
   1955562222, 2024104815, 2227730452, 2361852424,
   2428436474, 2756734187, 3204031479, 3329325298]

/-- SHA-256 initial hash state (fractional square roots of the first 8
primes). -/
def shaH0 : List Nat :=
  [1779033703, 3144134277, 1013904242, 2773480762,
   1359893119, 2600822924, 528734635, 1541459225]

/-- Big-endian byte encoding of `x` in `k` bytes. -/
def toBytesBE : Nat → Nat → List Nat
  | 0, _ => []
  | k + 1, x => toBytesBE k (x >>> 8) ++ [x % 256]

/-- SHA-256 padding: append `0x80`, zero-pad to 56 mod 64, append the 64-bit
big-endian bit length. -/
def shaPad (msg : List Nat) : List Nat :=
  let padZeros := (119 - msg.length % 64) % 64
  msg ++ [128] ++ List.replicate padZeros 0 ++ toBytesBE 8 (8 * msg.length)

/-- Big-endian 4-byte groups to 32-bit words. -/
def bytesToWords : List Nat → List Nat
  | a :: b :: c :: d :: rest =>
    ((a <<< 24) ||| (b <<< 16) ||| (c <<< 8) ||| d) :: bytesToWords rest
  | _ => []

/-- σ₀ message-schedule function. -/
def smallSigma0 (x : Nat) : Nat := rotr 7 x ^^^ rotr 18 x ^^^ (x >>> 3)

/-- σ₁ message-schedule function. -/
def smallSigma1 (x : Nat) : Nat := rotr 17 x ^^^ rotr 19 x ^^^ (x >>> 10)

/-- Σ₀ compression function. -/
def bigSigma0 (x : Nat) : Nat := rotr 2 x ^^^ rotr 13 x ^^^ rotr 22 x

/-- Σ₁ compression function. -/
def bigSigma1 (x : Nat) : Nat := rotr 6 x ^^^ rotr 11 x ^^^ rotr 25 x

/-- Extend the 16-word schedule by `count` further words. -/
def extendSchedule (w : List Nat) : Nat → List Nat
  | 0 => w
  | k + 1 =>
    let i := w.length
    let nw := w32 (w.getD (i - 16) 0 + smallSigma0 (w.getD (i - 15) 0)
      + w.getD (i - 7) 0 + smallSigma1 (w.getD (i - 2) 0))
    extendSchedule (w ++ [nw]) k

/-- One SHA-256 compression round on working state `[a,b,c,d,e,f,g,h]` with
round constant and schedule word `kw`. -/
def compressRound (st : List Nat) (kw : Nat × Nat) : List Nat :=
  match st with
  | [a, b, c, d, e, f, g, h] =>
    let ch := (e &&& f) ^^^ ((4294967295 - e) &&& g)
    let maj := (a &&& b) ^^^ (a &&& c) ^^^ (b &&& c)
    let t1 := w32 (h + bigSigma1 e + ch + kw.1 + kw.2)
    let t2 := w32 (bigSigma0 a + maj)
    [w32 (t1 + t2), a, b, c, w32 (d + t1), e, f, g]
  | other => other

/-- Process one 64-byte chunk into the running hash state. -/
def processChunk (h : List Nat) (chunk : List Nat) : List Nat :=
  let w := extendSchedule (bytesToWords chunk) 48
  let st := (shaK.zip w).foldl compressRound h
  List.zipWith (fun x y => w32 (x + y)) h st

/-- Split into `count` chunks of 64 bytes. -/
def chunks64 : Nat → List Nat → List (List Nat)
  | 0, _ => []
  | k + 1, bs => bs.take 64 :: chunks64 k (bs.drop 64)

/-- SHA-256 digest of a byte list (model of `sha2::Sha256::digest`). -/
def sha256 (msg : List Nat) : List Nat :=
  let padded := shaPad msg
  let hs := (chunks64 (padded.length / 64) padded).foldl processChunk shaH0
  hs.foldr (fun word acc => toBytesBE 4 word ++ acc) []

/-- Lowercase hex digit for a nibble. -/
def hexDigit (n : Nat) : Char :=
  if n < 10 then Char.ofNat (48 + n) else Char.ofNat (87 + n)

/-- Model of `hex::encode`: lowercase hex of a byte list. -/
def hexEncode (bs : List Nat) : String :=
  String.mk (bs.foldr (fun b acc => hexDigit (b / 16) :: hexDigit (b % 16) :: acc) [])

/-- UTF-8 encoding of one scalar value. -/
def utf8EncodeChar (c : Char) : List Nat :=
  let n := c.toNat
  if n < 128 then [n]
  else if n < 2048 then [192 ||| (n >>> 6), 128 ||| (n &&& 63)]
  else if n < 65536 then
    [224 ||| (n >>> 12), 128 ||| ((n >>> 6) &&& 63), 128 ||| (n &&& 63)]
  else
    [240 ||| (n >>> 18), 128 ||| ((n >>> 12) &&& 63),
     128 ||| ((n >>> 6) &&& 63), 128 ||| (n &&& 63)]

/-- Bytes of a string (model of `str::as_bytes`). -/
def utf8Encode (s : String) : List Nat :=
  s.data.foldr (fun c acc => utf8EncodeChar c ++ acc) []

/-! ## `Miner::attest` (src/miner.rs)

`attest` requests a challenge nonce, collects a timing-entropy sample on a
blocking thread, computes `commitment = hex(Sha256(nonce ‖ address ‖
serde_json::to_string(entropy)))`, optionally runs the probe battery, builds
the payload, and submits it.  The entropy summary enters the commitment only
through its serialized JSON string, and `serde_json::to_string` is a pure
function of the summary, so the embedding takes that serialized string as the
input (the summary's fields are `f64` diagnostics not referenced by any
claim). -/

/-- The externally visible steps of one `Miner::attest` call, in program
order. -/
inductive AttestStep where
  | requestChallenge
  | collectEntropy
  | computeCommitment
  | runProbes
  | buildPayload
  | submit
deriving DecidableEq, Repr

/-- The commitment hash of `Miner::attest` (miner.rs lines 65–67):
`hex::encode(Sha256::digest(format!("{}{}{}", nonce, address, entropy_json)))`. -/
def attestCommitment (nonce address entropyJson : String) : String :=
  hexEncode (sha256 (utf8Encode (nonce ++ address ++ entropyJson)))

/-- Result of one `Miner::attest` call: the commitment placed in the payload's
`report`, the optional fingerprint report, and the ordered step trace. -/
structure AttestResult where
  commitment : String
  fingerprintPayload : Option FingerprintReport
  trace : List AttestStep
deriving Repr

/-- `Miner::attest`, as a function of the challenge nonce the node returned,
the wallet address, the serialized entropy summary, the `run_fingerprints`
flag, and the probe battery's machine state.  The trace records the order in
which the code performs the steps: challenge (line 55), entropy (line 60),
commitment (lines 65–67), optional fingerprints (lines 70–78), payload build
(lines 81–97), submission (line 100). -/
def attest (nonce address entropyJson : String) (runFingerprints : Bool)
    (env : ProbeEnv) : AttestResult :=
  let commitment := attestCommitment nonce address entropyJson
  let fingerprintPayload :=
    if runFingerprints then some (validate_all_checks env) else none
  { commitment,
    fingerprintPayload,
    trace := [.requestChallenge, .collectEntropy, .computeCommitment]
      ++ (if runFingerprints then [.runProbes] else [])
      ++ [.buildPayload, .submit] }

/-! ## `RustChainClient::balance` (src/client.rs lines 168–177) -/

/-- Errors surfaced by the client model (`ClawRtcError` variants relevant to
the balance query): `Http` wraps a `reqwest` transport error, `Json` wraps a
`serde_json`/body-decode error. -/
inductive BalanceFetchError where
  | transport
  | decode
deriving DecidableEq, Repr

/-- What one GET of `/api/balance` can yield, as seen by `balance`:
a transport failure from `send()`, or a response carrying an HTTP status and
a body.  The body is `none` when it fails to deserialize as
`BalanceResponse`; otherwise it holds the optional `balance_rtc` field. -/
inductive BalanceFetch where
  | transportError
  | response (statusSuccess : Bool) (body : Option (Option ℚ))
deriving DecidableEq

/-- `RustChainClient::balance`: propagate transport errors (`send().await?`),
return `Ok(0.0)` on a non-success status, propagate body-decode errors
(`resp.json().await?`), else `Ok(balance_rtc.unwrap_or(0.0))`. -/
def balance (fetch : BalanceFetch) : Except BalanceFetchError ℚ :=
  match fetch with
  | .transportError => .error .transport
  | .response statusSuccess body =>
    if !statusSuccess then .ok 0
    else
      match body with
      | none => .error .decode
      | some balanceRtc => .ok (balanceRtc.getD 0)

/-! ## `hardware::get_mac_addresses` (src/hardware.rs lines 220–263) -/

/-- The command outputs read by `get_mac_addresses`: stdout of `ip -o link`
and of `ifconfig -a`, each `none` when the command failed to run.  (Rust
byte offsets coincide with `Char` offsets here: MAC addresses and the marker
strings are ASCII.) -/
structure MacEnv where
  ipLinkOutput : Option String
  ifconfigOutput : Option String

/-- Process one line of command output: find `marker`, take the following 17
characters lowercased, and append if it is not the all-zero MAC and not
already present. -/
def scanMacLine (marker : String) (macs : List String) (line : String) :
    List String :=
  match findSubstrPos marker.data line.data with
  | some pos =>
    let rest := line.data.drop (pos + marker.length)
    if 17 ≤ rest.length then
      let mac := String.mk ((rest.take 17).map Char.toLower)
      if mac ≠ "00:00:00:00:00:00" ∧ ¬ macs.contains mac
      then macs ++ [mac] else macs
    else macs
  | none => macs

/-- Scan every line of a command's stdout for MACs after `marker`, trimming
each line first when `trimLines` (the `ifconfig` branch trims, the `ip`
branch does not). -/
def scanMacs (marker : String) (trimLines : Bool) (stdout : String)
    (macs : List String) : List String :=
  (strLines stdout).foldl
    (fun acc line => scanMacLine marker acc (if trimLines then strTrim line else line))
    macs

/-- The MACs found by the two scans before the placeholder fallback:
`ip -o link` lines with `"link/ether "`, then — only if that found nothing —
`ifconfig -a` lines with `"ether "`. -/
def detectedMacs (env : MacEnv) : List String :=
  let macs :=
    match env.ipLinkOutput with
    | some stdout => scanMacs "link/ether " false stdout []
    | none => []
  if macs.isEmpty then
    match env.ifconfigOutput with
    | some stdout => scanMacs "ether " true stdout macs
    | none => macs
  else macs

/-- `hardware::get_mac_addresses`: the detected MACs, or the fixed placeholder
`"00:00:00:00:00:01"` when none were detected.  `HardwareInfo::detect` stores
this list in `macs`, and `signals_payload` copies it verbatim into the
attestation `signals` object. -/
def get_mac_addresses (env : MacEnv) : List String :=
  let macs := detectedMacs env
  if macs.isEmpty then ["00:00:00:00:00:01"] else macs

/-! ## `Miner::mine_loop` and `interruptible_sleep` (src/miner.rs)

Wall-clock time is discretised to whole seconds.  The cancellation flag is a
predicate on absolute time; `interruptible_sleep` polls it once per second,
exactly as the Rust loop checks `cancel` then sleeps one second while
`start.elapsed() < duration`.  Nothing but the sleeps advances time in the
model (attest/enroll/balance run in series within a cycle and their duration
is not observable through any claim). -/

/-- The polling loop of `interruptible_sleep`: at absolute second `t` with
`rem` seconds of the duration left, return the flag check's outcome and the
absolute time at which the call returns. -/
def sleepLoop (cancel : Nat → Bool) : Nat → Nat → Bool × Nat
  | t, 0 => (false, t)
  | t, rem + 1 => if cancel t then (true, t) else sleepLoop cancel (t + 1) rem

/-- `interruptible_sleep(duration, cancel)` started at absolute second
`start`: `true` iff cancelled, paired with the return time. -/
def interruptibleSleep (duration : Nat) (cancel : Nat → Bool) (start : Nat) :
    Bool × Nat :=
  sleepLoop cancel start duration

/-- The node-determined outcome of one mining cycle: whether `attest` would
succeed if attempted, and whether `enroll` returns `Ok(true)` (its `Err` and
rejection cases both surface as `Ok(false)` — miner.rs lines 118–136). -/
structure CycleOutcome where
  attestOk : Bool
  enrollOk : Bool
  balanceOk : Bool
deriving DecidableEq, Repr

/-- Events of the mining loop, in the order the loop performs them. -/
inductive MEvent where
  | cycleStart (n : Nat)
  | attestAttempt
  | attestSuccess
  | attestFailure
  | enrollAttempt
  | epochSleep
  | balanceCheck
  | retrySleep
deriving DecidableEq, Repr

/-- Loop state carried across cycles: the current time and
`attestation_valid_until`. -/
structure LoopState where
  time : Nat
  validUntil : Nat
deriving DecidableEq, Repr

/-- Result of one cycle body (after the top-of-loop cancel check):
whether an interruptible sleep observed cancellation (the `break` paths),
the successor state, and the cycle's events. -/
structure CycleResult where
  cancelledDuringSleep : Bool
  state : LoopState
  events : List MEvent
deriving DecidableEq, Repr

/-- `BLOCK_TIME` (client.rs): the fixed epoch wait in seconds. -/
def BLOCK_TIME : Nat := 600

/-- The enroll-and-wait phase of a cycle (miner.rs lines 169–186): on
`Ok(true)` sleep `BLOCK_TIME` then check the balance (the check's outcome is
logged, never fatal); otherwise sleep 60 seconds.  Either sleep observing
cancellation breaks the loop. -/
def enrollPhase (cancel : Nat → Bool) (o : CycleOutcome) (s : LoopState)
    (events : List MEvent) : CycleResult :=
  if o.enrollOk then
    let r := interruptibleSleep BLOCK_TIME cancel s.time
    if r.1 then
      { cancelledDuringSleep := true, state := { s with time := r.2 },
        events := events ++ [.enrollAttempt, .epochSleep] }
    else
      { cancelledDuringSleep := false, state := { s with time := r.2 },
        events := events ++ [.enrollAttempt, .epochSleep, .balanceCheck] }
  else
    let r := interruptibleSleep 60 cancel s.time
    { cancelledDuringSleep := r.1, state := { s with time := r.2 },
      events := events ++ [.enrollAttempt, .retrySleep] }

/-- One cycle body of `mine_loop` (miner.rs lines 157–186): re-attest iff
`now ≥ attestation_valid_until`; a failed attest sleeps 60 seconds and
restarts the cycle without enrolling; a successful attest extends the
validity to `now + 86400` and falls through to enrollment. -/
def runCycle (cancel : Nat → Bool) (o : CycleOutcome) (s : LoopState) :
    CycleResult :=
  if s.validUntil ≤ s.time then
    if o.attestOk then
      enrollPhase cancel o { s with validUntil := s.time + 86400 }
        [.attestAttempt, .attestSuccess]
    else
      let r := interruptibleSleep 60 cancel s.time
      { cancelledDuringSleep := r.1, state := { s with time := r.2 },
        events := [.attestAttempt, .attestFailure, .retrySleep] }
  else
    enrollPhase cancel o s []

/-- Result of running `mine_loop` for a bounded number of cycles:
`exitedByCancel` is true iff the loop took one of its `break` paths (the
top-of-cycle cancel check or a cancelled sleep); otherwise the fuel ran out
with the loop still running. -/
structure LoopResult where
  exitedByCancel : Bool
  state : LoopState
  trace : List MEvent
deriving DecidableEq, Repr

/-- `Miner::mine_loop`, unrolled for `fuel` cycles.  `sched n` is the node's
behaviour in cycle `n`; `cycle` is the cycle counter (incremented at the top
of each iteration, miner.rs line 154). -/
def mineLoop (cancel : Nat → Bool) (sched : Nat → CycleOutcome) :
    Nat → Nat → LoopState → List MEvent → LoopResult
  | 0, _, s, tr => { exitedByCancel := false, state := s, trace := tr }
  | fuel + 1, cycle, s, tr =>
    if cancel s.time then { exitedByCancel := true, state := s, trace := tr }
    else
      let n := cycle + 1
      let r := runCycle cancel (sched n) s
      let tr := tr ++ MEvent.cycleStart n :: r.events
      if r.cancelledDuringSleep then
        { exitedByCancel := true, state := r.state, trace := tr }
      else mineLoop cancel sched fuel n r.state tr

/-! ## Shared helper lemmas -/

/-- A trivial probe environment (no samples, empty identity surfaces),
used to instantiate concrete scenarios. -/
def emptyProbeEnv : ProbeEnv :=
  { clockIntervals := [], l1Times := [], l2Times := [], l3Times := [],
    simdArch := "", simdFlags := [], sse2Detected := false,
    avxDetected := false, coldTimes := [], hotTimes := [], intTimes := [],
    fpTimes := [], branchTimes := [],
    antiEmu := { readFile := fun _ => none, envSet := fun _ => false,
                 cloudMetadataResponds := false, systemdDetectVirt := none } }

theorem popVariance_nonneg (xs : List ℚ) : 0 ≤ popVariance xs := by
  unfold popVariance
  apply div_nonneg
  · apply List.sum_nonneg
    intro x hx
    obtain ⟨y, _, rfl⟩ := List.mem_map.mp hx
    positivity
  · exact_mod_cast Nat.zero_le _

theorem varianceMax1_nonneg (xs : List ℚ) : 0 ≤ varianceMax1 xs := by
  unfold varianceMax1
  apply div_nonneg
  · apply List.sum_nonneg
    intro x hx
    obtain ⟨y, _, rfl⟩ := List.mem_map.mp hx
    positivity
  · exact_mod_cast Nat.zero_le _

theorem sleepLoop_never_cancel (cancel : Nat → Bool)
    (h : ∀ t, cancel t = false) (t rem : Nat) :
    sleepLoop cancel t rem = (false, t + rem) := by
  induction rem generalizing t with
  | zero => simp [sleepLoop]
  | succ n ih =>
    rw [show t + (n + 1) = (t + 1) + n by omega, ← ih (t + 1)]
    simp [sleepLoop, h t]

theorem sleepLoop_cancel_flag (cancel : Nat → Bool) (t rem : Nat)
    (h : (sleepLoop cancel t rem).1 = true) :
    cancel (sleepLoop cancel t rem).2 = true := by
  induction rem generalizing t with
  | zero => simp [sleepLoop] at h
  | succ n ih =>
    by_cases hc : cancel t
    · simp [sleepLoop, hc]
    · simp only [sleepLoop, hc, if_false, Bool.false_eq_true] at h ⊢
      exact ih _ h

/-- With a flag that first becomes set at second `c` (and stays set), the
polling loop returns cancelled exactly at `c` whenever `c` falls inside the
polled window. -/
theorem sleepLoop_cancel_at (cancel : Nat → Bool) (c : Nat)
    (hOn : ∀ t, c ≤ t → cancel t = true)
    (hOff : ∀ t, t < c → cancel t = false) :
    ∀ rem t, t ≤ c → c < t + rem → sleepLoop cancel t rem = (true, c) := by
  intro rem
  induction rem with
  | zero => intro t h1 h2; omega
  | succ n ih =>
    intro t h1 h2
    rcases Nat.lt_or_ge t c with hlt | hge
    · simp only [sleepLoop, hOff t hlt, if_false]
      exact ih (t + 1) hlt (by omega)
    · have : t = c := by omega
      subst this
      simp [sleepLoop, hOn t le_rfl]

/-! ## Claim theorems -/

/-- C1: for every probe environment, the `FingerprintReport` returned by
`validate_all_checks` has `all_passed` equal to the logical AND of the six
individual `passed` fields stored in its `checks`. -/
theorem validate_all_checks_all_passed_is_and (env : ProbeEnv) :
    (validate_all_checks env).all_passed =
      ((validate_all_checks env).checks.clock_drift.passed
        && (validate_all_checks env).checks.cache_timing.passed
        && (validate_all_checks env).checks.simd_identity.passed
        && (validate_all_checks env).checks.thermal_drift.passed
        && (validate_all_checks env).checks.instruction_jitter.passed
        && (validate_all_checks env).checks.anti_emulation.passed) := rfl

/-- C2: for every nonce, wallet address, and serialized entropy summary, the
commitment `Miner::attest` places in the payload is the hex-encoded SHA-256
digest of `nonce ‖ address ‖ entropy-JSON`, and recomputing it from the same
three inputs (whatever the fingerprint flag or machine state) reproduces the
same hex string byte for byte. -/
theorem attest_commitment_formula (nonce address entropyJson : String)
    (rf rf' : Bool) (env env' : ProbeEnv) :
    (attest nonce address entropyJson rf env).commitment
        = hexEncode (sha256 (utf8Encode (nonce ++ address ++ entropyJson)))
      ∧ (attest nonce address entropyJson rf env).commitment
        = (attest nonce address entropyJson rf' env').commitment :=
  ⟨rfl, rfl⟩

/-- C3: the anti-emulation probe passes iff its collected VM-indicator list
is empty (any single indicator fails it); and — the inverted polarity — each
of the other five probes fails when its evidence is empty. -/
theorem anti_emulation_passes_iff_no_indicators (env : anti_emulation.Env) :
    ((anti_emulation.check env).passed = true
        ↔ anti_emulation.vmIndicators env = [])
      ∧ (clock_drift.check []).passed = false
      ∧ (cache_timing.check [] [] []).passed = false
      ∧ (simd_identity.check "" [] false false).passed = false
      ∧ (thermal_drift.check [] []).passed = false
      ∧ (instruction_jitter.check [] [] []).passed = false := by
  refine ⟨?_, ?_, ?_, by decide, by decide, by decide⟩
  · simp [anti_emulation.check, List.isEmpty_iff]
  · norm_num [clock_drift.check, clock_drift.driftPairs, popMean, popVariance,
      varianceMax1, meanMax1]
  · norm_num [cache_timing.check, popMean]

/-- C4 counterexample: a transport error and a malformed (undecodable)
success-status body do NOT produce a zero balance — both propagate errors,
refuting the claim that every fetch failure yields `Ok 0`. -/
theorem balance_error_propagation_cx :
    balance BalanceFetch.transportError
        = Except.error BalanceFetchError.transport
      ∧ balance (BalanceFetch.response true none)
        = Except.error BalanceFetchError.decode :=
  ⟨rfl, rfl⟩

/-- C4 (amended): the balance query "fails open" to zero only for a
non-success HTTP status (any body) and for a well-formed body without a
`balance_rtc` field; transport errors and undecodable bodies propagate as
errors. -/
theorem balance_fail_open_scope :
    (∀ body, balance (BalanceFetch.response false body) = Except.ok 0)
      ∧ balance (BalanceFetch.response true (some none)) = Except.ok 0
      ∧ (∀ q : ℚ, balance (BalanceFetch.response true (some (some q)))
          = Except.ok q)
      ∧ balance BalanceFetch.transportError
        = Except.error BalanceFetchError.transport
      ∧ balance (BalanceFetch.response true none)
        = Except.error BalanceFetchError.decode :=
  ⟨fun _ => rfl, rfl, fun _ => rfl, rfl, rfl⟩

/-- C5 counterexample: with fingerprints enabled, `Miner::attest` computes
the commitment BEFORE running the probe battery — the claimed
probes-before-commitment order is false on a concrete input. -/
theorem attest_commitment_before_probes_cx :
    ¬ ((attest "nonce" "RTCaddr" "\x7b\x7d" true emptyProbeEnv).trace.indexOf
          AttestStep.runProbes
        < (attest "nonce" "RTCaddr" "\x7b\x7d" true emptyProbeEnv).trace.indexOf
          AttestStep.computeCommitment) := by
  decide

/-- C5 (amended): within one `attest` call the steps occur in the order
challenge-request, entropy collection, commitment computation, then (when
enabled) the probe battery, then submission; in particular the commitment is
computed strictly after the nonce and entropy are known and strictly before
submission. -/
theorem attest_step_ordering (nonce address entropyJson : String)
    (rf : Bool) (env : ProbeEnv) :
    (attest nonce address entropyJson rf env).trace.indexOf
        AttestStep.requestChallenge
      < (attest nonce address entropyJson rf env).trace.indexOf
        AttestStep.collectEntropy
    ∧ (attest nonce address entropyJson rf env).trace.indexOf
        AttestStep.collectEntropy
      < (attest nonce address entropyJson rf env).trace.indexOf
        AttestStep.computeCommitment
    ∧ (attest nonce address entropyJson rf env).trace.indexOf
        AttestStep.computeCommitment
      < (attest nonce address entropyJson rf env).trace.indexOf
        AttestStep.submit
    ∧ (rf = true →
        (attest nonce address entropyJson rf env).trace.indexOf
            AttestStep.computeCommitment
          < (attest nonce address entropyJson rf env).trace.indexOf
            AttestStep.runProbes
        ∧ (attest nonce address entropyJson rf env).trace.indexOf
            AttestStep.runProbes
          < (attest nonce address entropyJson rf env).trace.indexOf
            AttestStep.submit) := by
  cases rf <;> simp [attest]

/-- C5 witness: the ordering theorem applied with fingerprints enabled. -/
theorem attest_step_ordering_witness :
    (attest "n" "a" "\x7b\x7d" true emptyProbeEnv).trace.indexOf
        AttestStep.computeCommitment
      < (attest "n" "a" "\x7b\x7d" true emptyProbeEnv).trace.indexOf
        AttestStep.runProbes :=
  ((attest_step_ordering "n" "a" "\x7b\x7d" true emptyProbeEnv).2.2.2 rfl).1

theorem runCycle_never_cancel (cancel : Nat → Bool)
    (h : ∀ t, cancel t = false) (o : CycleOutcome) (s : LoopState) :
    (runCycle cancel o s).cancelledDuringSleep = false := by
  unfold runCycle enrollPhase
  simp only [interruptibleSleep, sleepLoop_never_cancel cancel h]
  split_ifs <;> simp_all

theorem runCycle_cancel_observed (cancel : Nat → Bool) (o : CycleOutcome)
    (s : LoopState) (h : (runCycle cancel o s).cancelledDuringSleep = true) :
    ∃ t, cancel t = true := by
  by_cases hall : ∀ t, cancel t = false
  · rw [runCycle_never_cancel cancel hall] at h
    exact absurd h (by simp)
  · push_neg at hall
    obtain ⟨t, ht⟩ := hall
    exact ⟨t, by simpa using ht⟩

/-- An attest-failure cycle with no cancellation: sleep exactly 60 seconds,
leave the validity untouched, and report the fixed retry trace. -/
theorem runCycle_attest_failure (cancel : Nat → Bool)
    (h : ∀ t, cancel t = false) (o : CycleOutcome) (s : LoopState)
    (hexp : s.validUntil ≤ s.time) (hfail : o.attestOk = false) :
    runCycle cancel o s =
      { cancelledDuringSleep := false,
        state := { time := s.time + 60, validUntil := s.validUntil },
        events := [.attestAttempt, .attestFailure, .retrySleep] } := by
  unfold runCycle
  simp [hexp, hfail, interruptibleSleep, sleepLoop_never_cancel cancel h]

/-- C6: in every mining cycle, attestation is attempted iff the validity has
expired (`valid_until ≤ now`); a successful attestation sets the validity to
`now + 86400` seconds (the fixed 24-hour window); and a cycle that starts
inside the validity window skips the attest step — its first protocol event
is the enrollment attempt. -/
theorem mine_cycle_reattest_iff_expired (cancel : Nat → Bool)
    (o : CycleOutcome) (s : LoopState) :
    (MEvent.attestAttempt ∈ (runCycle cancel o s).events
        ↔ s.validUntil ≤ s.time)
      ∧ (s.validUntil ≤ s.time → o.attestOk = true →
          (runCycle cancel o s).state.validUntil = s.time + 86400)
      ∧ (s.time < s.validUntil →
          (runCycle cancel o s).events.head? = some MEvent.enrollAttempt) := by
  unfold runCycle enrollPhase
  cases hb : (interruptibleSleep BLOCK_TIME cancel s.time).1 <;>
    cases h60 : (interruptibleSleep 60 cancel s.time).1 <;>
      split_ifs <;> simp_all

/-- C6 witness: a first cycle at time 0 with validity 0 attests and sets the
validity to 86400; a second cycle at time 600 (after the epoch sleep) inside
that window starts directly with enrollment. -/
theorem mine_cycle_reattest_iff_expired_witness :
    ((0 : Nat) ≤ 0
        ∧ (runCycle (fun _ => false) ⟨true, true, true⟩ ⟨0, 0⟩).state.validUntil
          = 0 + 86400)
      ∧ ((600 : Nat) < 86400
        ∧ (runCycle (fun _ => false) ⟨true, true, true⟩
            ⟨600, 86400⟩).events.head? = some MEvent.enrollAttempt) :=
  ⟨⟨le_refl 0,
    (mine_cycle_reattest_iff_expired (fun _ => false) ⟨true, true, true⟩
      ⟨0, 0⟩).2.1 (le_refl 0) rfl⟩,
   ⟨by omega,
    (mine_cycle_reattest_iff_expired (fun _ => false) ⟨true, true, true⟩
      ⟨600, 86400⟩).2.2 (by decide)⟩⟩

/-- C7: node failures never terminate the mining loop.  Without a
cancellation signal the loop never exits, whatever the node does; if the loop
exited, the cancellation flag was observed set; and under an
always-failing-attestation node the loop retries at the fixed 60-second
backoff indefinitely — after `fuel` cycles exactly `60 * fuel` seconds have
elapsed and the loop is still running. -/
theorem mine_loop_exits_only_on_cancel (cancel : Nat → Bool)
    (sched : Nat → CycleOutcome) (fuel cyc : Nat) (s : LoopState)
    (tr : List MEvent) :
    ((∀ t, cancel t = false) →
        (mineLoop cancel sched fuel cyc s tr).exitedByCancel = false)
      ∧ ((mineLoop cancel sched fuel cyc s tr).exitedByCancel = true →
          ∃ t, cancel t = true)
      ∧ ((∀ t, cancel t = false) → (∀ n, (sched n).attestOk = false) →
          s.validUntil ≤ s.time →
          (mineLoop cancel sched fuel cyc s tr).state.time
            = s.time + 60 * fuel) := by
  induction fuel generalizing cyc s tr with
  | zero =>
    refine ⟨fun _ => rfl, fun h => ?_, fun _ _ _ => by simp [mineLoop]⟩
    simp [mineLoop] at h
  | succ n ih =>
    refine ⟨fun hnone => ?_, fun hexit => ?_, fun hnone hfail hexp => ?_⟩
    · simp only [mineLoop, hnone s.time, if_false,
        runCycle_never_cancel cancel hnone]
      exact (ih _ _ _).1 hnone
    · by_cases hall : ∀ t, cancel t = false
      · simp only [mineLoop, hall s.time, Bool.false_eq_true, if_false,
          runCycle_never_cancel cancel hall] at hexit
        rw [(ih _ _ _).1 hall] at hexit
        exact absurd hexit (by simp)
      · push_neg at hall
        obtain ⟨t, ht⟩ := hall
        exact ⟨t, by simpa using ht⟩
    · rw [show s.time + 60 * (n + 1) = (s.time + 60) + 60 * n by omega]
      simp only [mineLoop, hnone s.time, Bool.false_eq_true, if_false,
        runCycle_attest_failure cancel hnone _ s hexp (hfail (cyc + 1))]
      rw [(ih _ _ _).2.2 hnone hfail (by simp; omega)]

/-- C7 witness: with no cancellation and a node that always rejects
attestation, three cycles leave the loop still running, 180 seconds (three
fixed 60-second backoffs) later. -/
theorem mine_loop_exits_only_on_cancel_witness :
    (mineLoop (fun _ => false) (fun _ => ⟨false, false, false⟩) 3 0 ⟨0, 0⟩
        []).exitedByCancel = false
      ∧ (mineLoop (fun _ => false) (fun _ => ⟨false, false, false⟩) 3 0 ⟨0, 0⟩
        []).state.time = 0 + 60 * 3 :=
  ⟨(mine_loop_exits_only_on_cancel (fun _ => false)
      (fun _ => ⟨false, false, false⟩) 3 0 ⟨0, 0⟩ []).1 (fun _ => rfl),
   (mine_loop_exits_only_on_cancel (fun _ => false)
      (fun _ => ⟨false, false, false⟩) 3 0 ⟨0, 0⟩ []).2.2 (fun _ => rfl)
      (fun _ => rfl) (by decide)⟩

/-- C8: if the cancellation flag first becomes set at second `c` inside the
window of an interruptible sleep of any duration `d` (in particular the
600-second epoch wait and the 60-second retry sleep), the sleep returns
cancelled at second `c` — within one second of the signal, not at the full
interval boundary — and a mining cycle whose epoch sleep observes that signal
makes the loop exit with the cancellation observed at time `c`. -/
theorem interruptible_sleep_cancel_latency (d start c : Nat)
    (cancel : Nat → Bool)
    (hOn : ∀ t, c ≤ t → cancel t = true)
    (hOff : ∀ t, t < c → cancel t = false)
    (h1 : start ≤ c) (h2 : c < start + d) :
    interruptibleSleep d cancel start = (true, c)
      ∧ (∀ (sched : Nat → CycleOutcome) (fuel cyc : Nat) (s : LoopState)
          (tr : List MEvent),
          s.time = start → start < c → s.time < s.validUntil →
          (sched (cyc + 1)).enrollOk = true → d = BLOCK_TIME →
          (mineLoop cancel sched (fuel + 1) cyc s tr).exitedByCancel = true
            ∧ (mineLoop cancel sched (fuel + 1) cyc s tr).state.time = c) := by
  have hsleep : interruptibleSleep d cancel start = (true, c) :=
    sleepLoop_cancel_at cancel c hOn hOff d start h1 h2
  refine ⟨hsleep, ?_⟩
  intro sched fuel cyc s tr hst hlt hvalid hen hd
  subst hd
  subst hst
  have hn : cancel s.time = false := hOff s.time hlt
  have hrc : runCycle cancel (sched (cyc + 1)) s =
      { cancelledDuringSleep := true, state := { s with time := c },
        events := [.enrollAttempt, .epochSleep] } := by
    unfold runCycle enrollPhase
    simp [Nat.not_le.mpr hvalid, hen, hsleep]
  constructor <;> simp [mineLoop, hn, hrc]

/-- C8 witness: the flag set from second 42 onward cancels a 600-second sleep
started at second 0 exactly at second 42, and the mining loop sleeping
through its epoch wait exits at second 42. -/
theorem interruptible_sleep_cancel_latency_witness :
    (interruptibleSleep 600 (fun t => decide (42 ≤ t)) 0 = (true, 42)
        ∧ 42 < 0 + 600)
      ∧ ((mineLoop (fun t => decide (42 ≤ t)) (fun _ => ⟨true, true, true⟩) 1
          0 ⟨0, 100⟩ []).exitedByCancel = true
        ∧ (mineLoop (fun t => decide (42 ≤ t)) (fun _ => ⟨true, true, true⟩) 1
          0 ⟨0, 100⟩ []).state.time = 42) := by
  have h := interruptible_sleep_cancel_latency 600 0 42
    (fun t => decide (42 ≤ t))
    (fun t ht => decide_eq_true ht)
    (fun t ht => decide_eq_false (by omega))
    (by omega) (by omega)
  exact ⟨⟨h.1, by omega⟩,
    h.2 (fun _ => ⟨true, true, true⟩) 0 0 ⟨0, 100⟩ [] rfl (by omega)
      (by decide) rfl rfl⟩

/-- C9: over its 200 timed samples, the clock-drift probe passes iff the
coefficient of variation `stdev/mean = √variance / mean` is at least `0.0001`
and the standard deviation `√drift_variance` of the absolute differences
between consecutive samples is positive (exactly the code's `valid`, whose
`cv` is 0 when the mean is not positive — equivalently the division-by-zero
convention used here). -/
theorem clock_drift_pass_iff (intervals : List ℚ)
    (_hlen : intervals.length = 200) :
    (clock_drift.check intervals).passed = true ↔
      ((1 : ℝ) / 10000 ≤
          Real.sqrt (popVariance intervals : ℝ) / (popMean intervals : ℝ)
        ∧ 0 < Real.sqrt
            (varianceMax1 (clock_drift.driftPairs intervals) : ℝ)) := by
  clear _hlen
  have hv : (0 : ℝ) ≤ (popVariance intervals : ℝ) := by
    exact_mod_cast popVariance_nonneg intervals
  simp only [clock_drift.check, Bool.and_eq_true, decide_eq_true_eq,
    Real.sqrt_pos]
  constructor
  · rintro ⟨⟨hm, hineq⟩, hdv⟩
    refine ⟨?_, by exact_mod_cast hdv⟩
    have hmR : (0 : ℝ) < (popMean intervals : ℝ) := by exact_mod_cast hm
    have hineqR : ((popMean intervals : ℝ)) ^ 2
        ≤ 10 ^ 8 * (popVariance intervals : ℝ) := by exact_mod_cast hineq
    rw [le_div_iff₀ hmR, Real.le_sqrt (by positivity) hv]
    nlinarith
  · rintro ⟨hcv, hdv⟩
    have hmR : (0 : ℝ) < (popMean intervals : ℝ) := by
      by_contra hle
      push_neg at hle
      have hnp : Real.sqrt (popVariance intervals : ℝ)
          / (popMean intervals : ℝ) ≤ 0 :=
        div_nonpos_iff.mpr (Or.inl ⟨Real.sqrt_nonneg _, hle⟩)
      linarith
    have h1 : (1 : ℝ) / 10000 * (popMean intervals : ℝ)
        ≤ Real.sqrt (popVariance intervals : ℝ) := (le_div_iff₀ hmR).mp hcv
    have h2 : ((1 : ℝ) / 10000 * (popMean intervals : ℝ)) ^ 2
        ≤ (popVariance intervals : ℝ) :=
      (Real.le_sqrt (by positivity) hv).mp h1
    refine ⟨⟨by exact_mod_cast hmR, ?_⟩, by exact_mod_cast hdv⟩
    have h3 : ((popMean intervals : ℝ)) ^ 2
        ≤ 10 ^ 8 * (popVariance intervals : ℝ) := by nlinarith
    exact_mod_cast h3

/-- C9 witness: the pass-condition characterisation applied to a concrete
200-sample sequence (all samples equal, so the probe fails: `cv = 0` and the
drifts have zero deviation). -/
theorem clock_drift_pass_iff_witness :
    (List.replicate 200 (5 : ℚ)).length = 200
      ∧ ((clock_drift.check (List.replicate 200 (5 : ℚ))).passed = true ↔
          ((1 : ℝ) / 10000 ≤
              Real.sqrt (popVariance (List.replicate 200 (5 : ℚ)) : ℝ)
                / (popMean (List.replicate 200 (5 : ℚ)) : ℝ)
            ∧ 0 < Real.sqrt
                (varianceMax1
                  (clock_drift.driftPairs (List.replicate 200 (5 : ℚ))) : ℝ))) :=
  ⟨List.length_replicate 200 (5 : ℚ),
   clock_drift_pass_iff _ (List.length_replicate 200 (5 : ℚ))⟩

theorem scanMacLine_inv (marker : String) (macs : List String) (line : String)
    (h1 : "00:00:00:00:00:00" ∉ macs) (h2 : macs.Nodup) :
    "00:00:00:00:00:00" ∉ scanMacLine marker macs line
      ∧ (scanMacLine marker macs line).Nodup := by
  unfold scanMacLine
  cases findSubstrPos marker.data line.data with
  | none => exact ⟨h1, h2⟩
  | some pos =>
    simp only
    split_ifs with hlen hok
    · obtain ⟨hne, hmem⟩ := hok
      have hmem' : String.mk (((line.data.drop (pos + marker.length)).take 17).map
          Char.toLower) ∉ macs := by simpa using hmem
      constructor
      · simp only [List.mem_append, List.mem_singleton]
        rintro (h | h)
        · exact h1 h
        · exact hne h.symm
      · rw [List.nodup_append]
        refine ⟨h2, List.nodup_singleton _, ?_⟩
        intro x hx hx'
        simp only [List.mem_singleton] at hx'
        subst hx'
        exact hmem' hx
    · exact ⟨h1, h2⟩
    · exact ⟨h1, h2⟩

theorem scanMacs_inv (marker : String) (trimLines : Bool) (stdout : String) :
    ∀ macs : List String,
      "00:00:00:00:00:00" ∉ macs → macs.Nodup →
      "00:00:00:00:00:00" ∉ scanMacs marker trimLines stdout macs
        ∧ (scanMacs marker trimLines stdout macs).Nodup := by
  unfold scanMacs
  generalize strLines stdout = lines
  induction lines with
  | nil => intro macs h1 h2; exact ⟨h1, h2⟩
  | cons l rest ih =>
    intro macs h1 h2
    have step := scanMacLine_inv marker macs
      (if trimLines then strTrim l else l) h1 h2
    exact ih _ step.1 step.2

theorem detectedMacs_inv (env : MacEnv) :
    "00:00:00:00:00:00" ∉ detectedMacs env ∧ (detectedMacs env).Nodup := by
  unfold detectedMacs
  cases env.ipLinkOutput with
  | none =>
    simp only [List.isEmpty_nil, if_true]
    cases env.ifconfigOutput with
    | none => simp
    | some out => exact scanMacs_inv "ether " true out [] (by simp) (by simp)
  | some out =>
    simp only
    have hscan := scanMacs_inv "link/ether " false out [] (by simp) (by simp)
    split_ifs with hempty
    · cases env.ifconfigOutput with
      | none => exact hscan
      | some out2 => exact scanMacs_inv "ether " true out2 _ hscan.1 hscan.2
    · exact hscan

/-- C10: on every invocation, the MAC list that `get_mac_addresses` produces
(and `signals_payload` copies into the attestation `signals` object) is
non-empty — the fixed placeholder `"00:00:00:00:00:01"` is inserted when no
real interface MAC was detected — and it never contains the all-zero MAC
`"00:00:00:00:00:00"` nor any duplicate. -/
theorem get_mac_addresses_invariants (env : MacEnv) :
    get_mac_addresses env ≠ []
      ∧ "00:00:00:00:00:00" ∉ get_mac_addresses env
      ∧ (get_mac_addresses env).Nodup
      ∧ (detectedMacs env = [] →
          get_mac_addresses env = ["00:00:00:00:00:01"]) := by
  have hinv := detectedMacs_inv env
  unfold get_mac_addresses
  by_cases hd : (detectedMacs env).isEmpty
  · have h0 : detectedMacs env = [] := by simpa using hd
    refine ⟨by simp [hd], by simp [hd], by simp [hd], fun _ => by simp [hd]⟩
  · have hne : detectedMacs env ≠ [] := by simpa using hd
    exact ⟨by simp [hd, hne], by simp [hd, hinv.1], by simp [hd, hinv.2],
      fun h => absurd h hne⟩

/-- C10 witness: with both interface-listing commands unavailable nothing is
detected and the placeholder list is returned. -/
theorem get_mac_addresses_invariants_witness :
    detectedMacs { ipLinkOutput := none, ifconfigOutput := none } = []
      ∧ get_mac_addresses { ipLinkOutput := none, ifconfigOutput := none }
        = ["00:00:00:00:00:01"] :=
  ⟨rfl, (get_mac_addresses_invariants
    { ipLinkOutput := none, ifconfigOutput := none }).2.2.2 rfl⟩
